import Mathlib

/-! Verification of `models/fingpt.py`: a shallow embedding of the model-handle
cache (`get_model_and_tokenizer`), the likelihood evaluator (`fingpt_nll_fn`)
and the sampling orchestrator (`fingpt_completion_fn`), together with theorems
checking the specification's claims about them.

External collaborators (the HuggingFace tokenizer and model, jax, and the
`serialize_arr` text format) are modelled as abstract parameters; everything
the Python file itself computes is translated directly. -/

namespace FinGPT

/-- Abstract handle for the fixed `LlamaTokenizer` built by `get_tokenizer`
(`models/fingpt.py` lines 20-35).  `encode` models `tokenizer(s)['input_ids']`
with the default `add_special_tokens=True`, so the returned id list includes the
leading special tokens the tokenizer inserts; `convert_tokens_to_ids` models
`tokenizer.convert_tokens_to_ids` on a single-character token; `vocab_size`
models `len(tokenizer)`. -/
structure Tokenizer where
  encode : String → List ℕ
  convert_tokens_to_ids : Char → ℕ
  vocab_size : ℕ

/-- The fields of the external `SerializerSettings` that `models/fingpt.py`
reads: the decimal precision `prec`, the step separator `time_sep`, and the
numeric base `ba60e` used in the bin-width correction (line 110). -/
structure SerializerSettings where
  prec : ℕ
  time_sep : String
  ba60e : ℝ

/-- Fuel-based worker for `pySplit`.  Walks the character list left to right;
whenever the (non-empty) separator is a prefix of the remainder it emits the
accumulated chunk and consumes the separator, otherwise it moves one character
into the accumulator.  The fuel is at least the list length plus one, so the
fuel-exhausted branch is never reached on the intended inputs. -/
def pySplitAux (sep : List Char) : ℕ → List Char → List Char → List (List Char)
  | 0, l, acc => [acc.reverse ++ l]
  | fuel + 1, l, acc =>
    match l with
    | [] => [acc.reverse]
    | c :: rest =>
      if sep.isPrefixOf (c :: rest) then
        acc.reverse :: pySplitAux sep fuel (rest.drop (sep.length - 1)) []
      else
        pySplitAux sep fuel rest (c :: acc)

/-- Python's `s.split(sep)` for a non-empty separator, as used by
`input_str.split(settings.time_sep)` on line 125: splits on every occurrence of
`sep`, keeping empty chunks (so `"1,2,3;".split(";") == ["1,2,3", ""]`). -/
def pySplit (s sep : String) : List String :=
  (pySplitAux sep.toList (s.toList.length + 1) s.toList []).map List.asString

/-- `tokenize_fn` (lines 56-58): builds the fixed tokenizer via
`get_tokenizer()` — which takes no arguments, modelled by the ambient `tok` —
and tokenizes the string.  The `model` argument is accepted but never used. -/
def tokenize_fn (tok : Tokenizer) (s : String) (model : String) : List ℕ :=
  tok.encode s

/-- The token-budget computation of `fingpt_completion_fn` (lines 125-126):
`avg_tokens_per_step = len(tokenize_fn(input_str, model)['input_ids']) /
len(input_str.split(settings.time_sep))` (true division), then
`max_tokens = int(avg_tokens_per_step * steps)`.  All quantities are
non-negative, so Python's `int` truncation is the floor. -/
def max_tokens (tok : Tokenizer) (input_str : String) (steps : ℕ)
    (settings : SerializerSettings) (model : String) : ℤ :=
  let avg_tokens_per_step : ℚ :=
    ((tokenize_fn tok input_str model).length : ℚ)
      / ((pySplit input_str settings.time_sep).length : ℚ)
  ⌊avg_tokens_per_step * (steps : ℚ)⌋

/-- `get_model_and_tokenizer` (lines 37-54) together with the module-level
cache `loaded` (line 18), which is threaded through explicitly.  `M` stands for
the opaque loaded model object; `freshModel` models the externally loaded
base-plus-adapter model (lines 42-51), which does not depend on `model_name`,
and `tok` models `get_tokenizer()`.  The source first returns
`loaded[model_name]` whenever the key is present (lines 38-39) — without
consulting `cache_model` — and stores the freshly built pair only when
`cache_model` is true (lines 52-53). -/
def get_model_and_tokenizer {M : Type} (freshModel : M) (tok : Tokenizer)
    (loaded : List (String × M × Tokenizer)) (model_name : String)
    (cache_model : Bool) : (M × Tokenizer) × List (String × M × Tokenizer) :=
  match loaded.lookup model_name with
  | some mt => (mt, loaded)
  | none =>
    let pair : M × Tokenizer := (freshModel, tok)
    if cache_model then (pair, (model_name, pair) :: loaded) else (pair, loaded)

/-- `good_tokens` (lines 86-87 and 141-142): the ids of the characters of
`"0123456789" + settings.time_sep`, in order and with multiplicity, via
`convert_tokens_to_ids`. -/
def good_tokens (tok : Tokenizer) (settings : SerializerSettings) : List ℕ :=
  ("0123456789" ++ settings.time_sep).toList.map tok.convert_tokens_to_ids

/-- `bad_tokens` (lines 88 and 144):
`[i for i in range(len(tokenizer)) if i not in good_tokens]`. -/
def bad_tokens (tok : Tokenizer) (settings : SerializerSettings) : List ℕ :=
  (List.range tok.vocab_size).filter fun i =>
    decide (i ∉ good_tokens tok settings)

/-- The context offset of `fingpt_nll_fn` (lines 101-102):
`input_len = len(tokenizer([input_str])['input_ids'][0])` followed by
`input_len = input_len - 2`. -/
def context_offset (tok : Tokenizer) (input_str : String) : ℕ :=
  (tok.encode input_str).length - 2

/-- Line 111: `avg_logdet_dydx = np.log(vmap(grad(transform))(target_arr)).mean()`.
`dtransform` is the mathematical derivative that `jax.grad` computes; `.mean()`
is the sum divided by the element count. -/
noncomputable def avg_logdet_dydx (dtransform : ℝ → ℝ) (target_arr : List ℝ) : ℝ :=
  (target_arr.map fun x => Real.log (dtransform x)).sum / (target_arr.length : ℝ)

/-- Outcome of the likelihood evaluator.  `value x` is a finite float result;
`nonFinite` models a NaN/inf float (numpy's division by zero emits a warning
and yields a non-finite value rather than raising); `error` models a raised
exception carrying the exception's name — the source never produces one. -/
inductive NLLResult where
  | value : ℝ → NLLResult
  | nonFinite : NLLResult
  | error : String → NLLResult

/-- `fingpt_nll_fn` (lines 60-112).  Abstracted externals: `serialize_arr` is
the external serializer (line 11 import), applied after mapping `transform`
over the array (`vmap(transform)` on lines 72-73); `gather_logprobs` models
lines 76-93 end to end — tokenize `full_series`, run the forward pass, force
the `bad_tokens` logits to `-100`, take `log_softmax`, and gather the
per-position log-probability of each actual next token.  The code then drops
the first `input_len` entries (line 104, with `input_len` from lines 101-102,
see `context_offset`), sums, negates and divides by `len(target_arr)`
(line 106), subtracts `settings.prec * np.log(settings.ba60e)` (line 110) and
subtracts `avg_logdet_dydx` (lines 111-112).  When `target_arr` is empty the
division by zero makes the float result non-finite, modelled by `nonFinite`;
no exception is raised on that path.  `count_seps`, `temp` and `cache_model`
are accepted exactly as in the source; none of them affects the returned
value (`cache_model` only reaches the cache resolution, modelled separately by
`get_model_and_tokenizer`). -/
noncomputable def fingpt_nll_fn (tok : Tokenizer)
    (serialize_arr : List ℝ → SerializerSettings → String)
    (gather_logprobs : String → List ℝ)
    (input_arr target_arr : List ℝ) (settings : SerializerSettings)
    (transform dtransform : ℝ → ℝ) (count_seps : Bool) (temp : ℝ)
    (cache_model : Bool) : NLLResult :=
  let input_str := serialize_arr (input_arr.map transform) settings
  let target_str := serialize_arr (target_arr.map transform) settings
  let full_series := input_str ++ target_str
  let logprobs := gather_logprobs full_series
  let input_len := context_offset tok input_str
  let retained := logprobs.drop input_len
  if target_arr.length = 0 then NLLResult.nonFinite
  else
    let BPD := -retained.sum / (target_arr.length : ℝ)
    let transformed_nll := BPD - (settings.prec : ℝ) * Real.log settings.ba60e
    NLLResult.value (transformed_nll - avg_logdet_dydx dtransform target_arr)

/-- `fingpt_completion_fn` (lines 114-160).  The generation loop runs
`range(num_samples // batch_size)` times (line 131); in each iteration the
prompt is replicated into `batch_size` identical rows, `model.generate`
produces one continuation per row, and `batch_decode` of the new token span
yields `batch_size` strings that are appended to `gen_strs` (lines 132-159).
`decode_row i j` abstracts the decoded continuation of row `j` of iteration
`i` (generation is external and stochastic).  The token budget of lines
125-126 is computed first, exactly as in the source (see `max_tokens`). -/
def fingpt_completion_fn (tok : Tokenizer) (decode_row : ℕ → ℕ → String)
    (model : String) (input_str : String) (steps : ℕ)
    (settings : SerializerSettings) (batch_size : ℕ) (num_samples : ℕ) :
    List String :=
  let _max_tokens := max_tokens tok input_str steps settings model
  (List.range (num_samples / batch_size)).flatMap fun i =>
    (List.range batch_size).map fun j => decode_row i j

/-! Concrete instances used by the counterexamples and witnesses. -/

/-- A small concrete tokenizer: one id per character after a single leading
special token, digit characters mapped to ids 0-9, every other character to
id 10, vocabulary size 12. -/
def tok0 : Tokenizer where
  encode := fun s => List.range (s.length + 1)
  convert_tokens_to_ids := fun c => if c.isDigit then c.toNat - 48 else 10
  vocab_size := 12

/-- Settings with comma separator. -/
def settings0 : SerializerSettings := ⟨1, ",", 10⟩

/-- Settings with semicolon separator. -/
def settingsSemi : SerializerSettings := ⟨1, ";", 10⟩

/-- Settings whose separator character is the digit `0`, so that the digit
list and the separator list overlap. -/
def settingsZeroSep : SerializerSettings := ⟨1, "0", 10⟩

/-- A trivial concrete serializer stand-in. -/
def serialize0 : List ℝ → SerializerSettings → String := fun _ _ => "c"

/-- A trivial concrete log-probability gatherer stand-in. -/
def gather0 : String → List ℝ := fun _ => []

/-- Length of one batched generation loop: `k` iterations, each contributing
one decoded string per row of a batch of `b` rows. -/
lemma length_flatMap_range_map (k b : ℕ) (f : ℕ → ℕ → String) :
    ((List.range k).flatMap fun i => (List.range b).map (f i)).length = k * b := by
  induction k with
  | zero => simp
  | succ n ih => rw [List.range_succ, List.flatMap_append]; simp [ih, Nat.succ_mul]

/-- Claim C1, counterexample: at `num_samples = 22`, `batch_size = 5` the
orchestrator returns `5 * (22 // 5) = 20` strings, not the
`batch_size * ceil(num_samples / batch_size) = 25` the claim states. -/
theorem completion_count_ceil_counterexample :
    (fingpt_completion_fn tok0 (fun _ _ => "") "m" "1,2,3;" 6 settings0 5 22).length = 20 ∧
      (fingpt_completion_fn tok0 (fun _ _ => "") "m" "1,2,3;" 6 settings0 5 22).length
        ≠ 5 * ((22 + 5 - 1) / 5) := by
  decide

/-- Claim C1, amended: for every `num_samples ≥ 1` and `batch_size ≥ 1`
(written `n + 1` and `b + 1`), the sampling orchestrator returns a sequence of
strings whose length equals `batch_size * floor(num_samples / batch_size)` —
the loop runs `num_samples // batch_size` times, rounding down, so
`num_samples = 20, batch_size = 5` yields length 20 but
`num_samples = 22, batch_size = 5` yields length 20, not 25. -/
theorem completion_count_floor (tok : Tokenizer) (decode_row : ℕ → ℕ → String)
    (model input_str : String) (steps : ℕ) (settings : SerializerSettings)
    (b n : ℕ) :
    (fingpt_completion_fn tok decode_row model input_str steps settings
        (b + 1) (n + 1)).length = (b + 1) * ((n + 1) / (b + 1)) := by
  unfold fingpt_completion_fn
  rw [length_flatMap_range_map, Nat.mul_comm]

/-- Claim C3, counterexample: a concrete tokenizer for which the offset
computed by the code differs from the token length of the context minus one
beginning-of-sequence token — the code subtracts 2, not 1. -/
theorem context_offset_counterexample :
    context_offset tok0 "ab" ≠ (tok0.encode "ab").length - 1 := by
  decide

/-- Claim C3, amended: the offset used to discard context log-probabilities
equals the token length of the serialized context tokenized on its own minus
two — the beginning-of-sequence token plus one further leading token — i.e.
one more than the single-BOS overhead the claim states. -/
theorem context_offset_minus_two (tok : Tokenizer) (input_str : String)
    (h : 2 ≤ (tok.encode input_str).length) :
    context_offset tok input_str + 1 = (tok.encode input_str).length - 1 := by
  unfold context_offset
  omega

/-- Witness for `context_offset_minus_two` at a concrete tokenizer and
context string. -/
theorem context_offset_minus_two_witness :
    2 ≤ (tok0.encode "ab").length ∧
      context_offset tok0 "ab" + 1 = (tok0.encode "ab").length - 1 :=
  ⟨by decide, context_offset_minus_two tok0 "ab" (by decide)⟩

/-- Claim C4, counterexample: with the identifier already stored in the cache,
a call with the cache flag set to false still returns the stored handle
(model id 2) rather than constructing the fresh pair (model id 1). -/
theorem cache_lookup_ignores_flag_counterexample :
    (get_model_and_tokenizer (1 : ℕ) tok0 [("m", ((2 : ℕ), tok0))] "m"
        false).1 ≠ ((1 : ℕ), tok0) := by
  have h0 : (get_model_and_tokenizer (1 : ℕ) tok0 [("m", ((2 : ℕ), tok0))] "m"
      false).1 = ((2 : ℕ), tok0) := rfl
  rw [h0]
  intro hc
  exact absurd (congrArg Prod.fst hc) (by decide)

/-- Claim C4, amended: the resolver returns the stored handle whenever the
identifier is present in the cache, regardless of the cache flag; only on a
cache miss does it construct the fresh pair, and it stores that pair in the
cache exactly when the cache flag is true. -/
theorem get_model_and_tokenizer_characterization {M : Type} (freshModel : M)
    (tok : Tokenizer) (loaded : List (String × M × Tokenizer))
    (model_name : String) (cache_model : Bool) :
    (∃ mt, loaded.lookup model_name = some mt ∧
        get_model_and_tokenizer freshModel tok loaded model_name cache_model
          = (mt, loaded)) ∨
      (loaded.lookup model_name = none ∧
        get_model_and_tokenizer freshModel tok loaded model_name cache_model
          = ((freshModel, tok),
              if cache_model then (model_name, (freshModel, tok)) :: loaded
              else loaded)) := by
  cases h : loaded.lookup model_name with
  | some mt =>
    left
    exact ⟨mt, rfl, by simp [get_model_and_tokenizer, h]⟩
  | none =>
    right
    refine ⟨rfl, ?_⟩
    cases cache_model <;> simp [get_model_and_tokenizer, h]

/-- Claim C2, counterexample: called with an empty target array, the evaluator
does not raise `InvalidInputError` — the division by `len(target_arr) = 0`
just produces a non-finite float. -/
theorem nll_empty_target_no_error :
    fingpt_nll_fn tok0 serialize0 gather0 [] [] settings0 (fun x => x)
        (fun _ => (1 : ℝ)) true 1 true ≠ NLLResult.error "InvalidInputError" := by
  have h : fingpt_nll_fn tok0 serialize0 gather0 [] [] settings0 (fun x => x)
      (fun _ => (1 : ℝ)) true 1 true = NLLResult.nonFinite := by
    simp [fingpt_nll_fn]
  rw [h]
  intro hc
  exact NLLResult.noConfusion hc

/-- Claim C2, amended: with an empty target array the evaluator raises
nothing — its division by `len(target_arr) = 0` yields a non-finite value —
while with a target array of length 1 it returns a scalar. -/
theorem nll_empty_nonfinite_singleton_value (tok : Tokenizer)
    (serialize_arr : List ℝ → SerializerSettings → String)
    (gather_logprobs : String → List ℝ) (input_arr : List ℝ)
    (settings : SerializerSettings) (transform dtransform : ℝ → ℝ)
    (count_seps : Bool) (temp : ℝ) (cache_model : Bool) (x : ℝ) :
    fingpt_nll_fn tok serialize_arr gather_logprobs input_arr [] settings
        transform dtransform count_seps temp cache_model = NLLResult.nonFinite ∧
      ∃ v : ℝ, fingpt_nll_fn tok serialize_arr gather_logprobs input_arr [x]
        settings transform dtransform count_seps temp cache_model
          = NLLResult.value v := by
  constructor
  · simp [fingpt_nll_fn]
  · have hlen : (([x] : List ℝ).length = 0) = False := by simp
    simp only [fingpt_nll_fn, hlen, if_false]
    exact ⟨_, rfl⟩

/-- Claim C5: for every non-empty target array (written `x :: rest`), the
scalar returned by the likelihood evaluator equals minus the sum of the
retained continuation log-probabilities divided by `len(target_arr)`, minus
`settings.prec * ln(settings.ba60e)`, minus the mean over target elements of
`ln |transform'(target element)|`. -/
theorem nll_value_formula (tok : Tokenizer)
    (serialize_arr : List ℝ → SerializerSettings → String)
    (gather_logprobs : String → List ℝ) (input_arr : List ℝ)
    (settings : SerializerSettings) (transform dtransform : ℝ → ℝ)
    (count_seps : Bool) (temp : ℝ) (cache_model : Bool) (x : ℝ)
    (rest : List ℝ) :
    fingpt_nll_fn tok serialize_arr gather_logprobs input_arr (x :: rest)
        settings transform dtransform count_seps temp cache_model
      = NLLResult.value
          (-((gather_logprobs
                  (serialize_arr (input_arr.map transform) settings
                    ++ serialize_arr ((x :: rest).map transform) settings)).drop
                (context_offset tok
                  (serialize_arr (input_arr.map transform) settings))).sum
              / (((x :: rest).length : ℕ) : ℝ)
            - (settings.prec : ℝ) * Real.log settings.ba60e
            - ((x :: rest).map fun y => Real.log |dtransform y|).sum
              / (((x :: rest).length : ℕ) : ℝ)) := by
  simp only [fingpt_nll_fn, avg_logdet_dydx, List.length_cons,
    Nat.succ_ne_zero, if_false, Real.log_abs]

/-- Claim C6: with the identity transform — whose derivative is the constant
function 1, as computed by `jax.grad` — the log-determinant correction term of
the likelihood evaluator is exactly 0 for every target array, and the returned
value is the discretization-corrected NLL unchanged. -/
theorem identity_transform_zero_correction (tok : Tokenizer)
    (serialize_arr : List ℝ → SerializerSettings → String)
    (gather_logprobs : String → List ℝ) (input_arr : List ℝ)
    (settings : SerializerSettings) (transform : ℝ → ℝ) (count_seps : Bool)
    (temp : ℝ) (cache_model : Bool) (x : ℝ) (rest : List ℝ) :
    (∀ target_arr : List ℝ, avg_logdet_dydx (fun _ => (1 : ℝ)) target_arr = 0) ∧
      fingpt_nll_fn tok serialize_arr gather_logprobs input_arr (x :: rest)
          settings transform (fun _ => (1 : ℝ)) count_seps temp cache_model
        = NLLResult.value
            (-((gather_logprobs
                    (serialize_arr (input_arr.map transform) settings
                      ++ serialize_arr ((x :: rest).map transform) settings)).drop
                  (context_offset tok
                    (serialize_arr (input_arr.map transform) settings))).sum
                / (((x :: rest).length : ℕ) : ℝ)
              - (settings.prec : ℝ) * Real.log settings.ba60e) := by
  have hz : ∀ target_arr : List ℝ,
      avg_logdet_dydx (fun _ => (1 : ℝ)) target_arr = 0 := by
    intro t
    simp [avg_logdet_dydx]
  refine ⟨hz, ?_⟩
  simp only [fingpt_nll_fn, List.length_cons, Nat.succ_ne_zero, if_false, hz,
    sub_zero]

/-- Splitting a list with a Boolean predicate and with its negation accounts
for every element. -/
lemma length_filter_add_length_filter_not (l : List ℕ) (f : ℕ → Bool) :
    (l.filter f).length + (l.filter fun a => !(f a)).length = l.length := by
  induction l with
  | nil => rfl
  | cons a t ih => cases h : f a <;> simp [h] <;> omega

/-- Filtering `range V` down to the members of a duplicate-free list of ids
below `V` recovers exactly that many elements. -/
lemma length_filter_mem (g : List ℕ) (V : ℕ) (hlt : ∀ i ∈ g, i < V)
    (hnd : g.Nodup) :
    ((List.range V).filter fun i => decide (i ∈ g)).length = g.length := by
  apply List.Perm.length_eq
  apply (List.perm_ext_iff_of_nodup ((List.nodup_range V).filter _) hnd).2
  intro a
  simp only [List.mem_filter, List.mem_range, decide_eq_true_eq]
  constructor
  · rintro ⟨-, h⟩
    exact h
  · intro h
    exact ⟨hlt a h, h⟩

/-- Claim C7, counterexample: with a separator whose character is the digit
`0`, the good-token list contains the id of `0` twice, so the number of bad
ids plus the number of good ids is 13 while the vocabulary size is 12. -/
theorem token_count_duplicate_counterexample :
    (bad_tokens tok0 settingsZeroSep).length
        + (good_tokens tok0 settingsZeroSep).length ≠ tok0.vocab_size := by
  decide

/-- Claim C7, amended: provided the good characters map to pairwise distinct
token ids that lie below the vocabulary size — as with the ten digits plus a
non-digit separator on a real tokenizer — the number of bad token ids plus the
number of good token ids equals the vocabulary size, and every id below the
vocabulary size lies in the good list or the bad list.  In general the good
ids are counted with multiplicity, so a separator repeating a character (or a
digit) breaks the count. -/
theorem token_partition_count (tok : Tokenizer) (settings : SerializerSettings)
    (hlt : ∀ i ∈ good_tokens tok settings, i < tok.vocab_size)
    (hnd : (good_tokens tok settings).Nodup) :
    (bad_tokens tok settings).length + (good_tokens tok settings).length
        = tok.vocab_size ∧
      ∀ i < tok.vocab_size,
        i ∈ good_tokens tok settings ∨ i ∈ bad_tokens tok settings := by
  have hpred : (fun i => decide (i ∉ good_tokens tok settings))
      = fun i => !(decide (i ∈ good_tokens tok settings)) :=
    funext fun i => by simp
  constructor
  · have h1 := length_filter_add_length_filter_not
      (List.range tok.vocab_size)
      (fun i => decide (i ∈ good_tokens tok settings))
    simp only at h1
    have h2 := length_filter_mem (good_tokens tok settings) tok.vocab_size
      hlt hnd
    have h3 : (List.range tok.vocab_size).length = tok.vocab_size :=
      List.length_range _
    have hb : bad_tokens tok settings
        = (List.range tok.vocab_size).filter
            fun i => !(decide (i ∈ good_tokens tok settings)) := by
      unfold bad_tokens
      rw [hpred]
    rw [hb]
    omega
  · intro i hi
    by_cases hg : i ∈ good_tokens tok settings
    · exact Or.inl hg
    · refine Or.inr ?_
      simp [bad_tokens, List.mem_filter, List.mem_range, hi, hg]

/-- Witness for `token_partition_count`: the concrete tokenizer `tok0` with
the semicolon separator has 11 distinct good ids below its vocabulary size 12,
one bad id, and the counts add up to 12. -/
theorem token_partition_count_witness :
    (∀ i ∈ good_tokens tok0 settingsSemi, i < tok0.vocab_size) ∧
      (good_tokens tok0 settingsSemi).Nodup ∧
      ((bad_tokens tok0 settingsSemi).length
            + (good_tokens tok0 settingsSemi).length = tok0.vocab_size ∧
        ∀ i < tok0.vocab_size,
          i ∈ good_tokens tok0 settingsSemi ∨ i ∈ bad_tokens tok0 settingsSemi) :=
  ⟨by decide, by decide, token_partition_count tok0 settingsSemi (by decide)
    (by decide)⟩

/-- Claim C8, counterexample: with separator `";"`, splitting `"1,2,3;"`
yields the two parts `["1,2,3", ""]`, not 3 steps; for `steps = 6` the budget
is therefore three times the token count of the input string (21 for a token
count of 7), not twice (14). -/
theorem max_tokens_example_counterexample :
    max_tokens tok0 "1,2,3;" 6 settingsSemi "m"
      ≠ 2 * ((tokenize_fn tok0 "1,2,3;" "m").length : ℤ) := by
  have hT : (tok0.encode "1,2,3;").length = 7 := by decide
  have hs : (pySplit "1,2,3;" settingsSemi.time_sep).length = 2 := by decide
  simp only [max_tokens, tokenize_fn]
  rw [hT, hs]
  have key : ((7 : ℕ) : ℚ) / ((2 : ℕ) : ℚ) * ((6 : ℕ) : ℚ)
      = ((21 : ℤ) : ℚ) := by norm_num
  rw [key, Int.floor_intCast]
  norm_num

/-- Claim C8, amended: the budget equals
`int(token count / steps-present * steps)` where the steps already present
are the parts of the Python split — which keeps a trailing empty part — so
`"1,2,3;"` with separator `";"` has 2 steps present and `steps = 6` yields
`max_tokens` equal to three times the token count of the input string, for
every tokenizer. -/
theorem max_tokens_semicolon_triples (tok : Tokenizer) (m : String) (p : ℕ)
    (b : ℝ) :
    max_tokens tok "1,2,3;" 6 ⟨p, ";", b⟩ m
      = 3 * ((tokenize_fn tok "1,2,3;" m).length : ℤ) := by
  simp only [max_tokens]
  have hs : (pySplit "1,2,3;" ";").length = 2 := by decide
  rw [hs]
  have key : (((tokenize_fn tok "1,2,3;" m).length : ℕ) : ℚ) / ((2 : ℕ) : ℚ)
        * ((6 : ℕ) : ℚ)
      = ((3 * (tokenize_fn tok "1,2,3;" m).length : ℤ) : ℚ) := by
    push_cast
    ring
  rw [key, Int.floor_intCast]

/-- Claim C9: the likelihood evaluator's result does not depend on the `temp`
parameter — `temp` is accepted but never used, in particular the logits are
not scaled by it before the softmax. -/
theorem nll_independent_of_temp (tok : Tokenizer)
    (serialize_arr : List ℝ → SerializerSettings → String)
    (gather_logprobs : String → List ℝ) (input_arr target_arr : List ℝ)
    (settings : SerializerSettings) (transform dtransform : ℝ → ℝ)
    (count_seps : Bool) (cache_model : Bool) (t1 t2 : ℝ) :
    fingpt_nll_fn tok serialize_arr gather_logprobs input_arr target_arr
        settings transform dtransform count_seps t1 cache_model
      = fingpt_nll_fn tok serialize_arr gather_logprobs input_arr target_arr
        settings transform dtransform count_seps t2 cache_model := rfl

/-- Claim C10: `tokenize_fn` ignores its `model` argument — it always uses the
fixed tokenizer built by the zero-argument `get_tokenizer()` — so its result,
and consequently the orchestrator's token budget `max_tokens`, is independent
of the model identifier passed in. -/
theorem tokenize_fn_ignores_model (tok : Tokenizer) (s : String)
    (m1 m2 : String) :
    tokenize_fn tok s m1 = tokenize_fn tok s m2 ∧
      ∀ (steps : ℕ) (settings : SerializerSettings),
        max_tokens tok s steps settings m1 = max_tokens tok s steps settings m2 :=
  ⟨rfl, fun _ _ => rfl⟩

end FinGPT
